import Mathlib

/-!
Shallow embedding of the rust_sqlite (SQLRite) storage core:
the data model (`DataType`, `Row`, `Index`, `Column`, `Table`, `Database`),
the schema translator (`CreateQuery`), the insertion algorithm
(`Table.insert_row`), the uniqueness check
(`Table.validate_unique_constraint`) and the command dispatcher's
CREATE TABLE / INSERT branches (`process_create`, `process_insert`).

Conventions of the embedding:
* Rust `HashMap`/`BTreeMap` values are modelled as association lists with
  insert-or-replace semantics (`alInsert` / `alLookup`); none of the claims
  depends on iteration order of a map.
* Rust machine integers are modelled as `Int` with explicit range checks
  where the source can overflow: `i64` addition overflow aborts (Rust debug
  build panics), the `as i32` cast wraps (`wrap32`).
* A Rust panic (`unwrap` on `None`/`Err`, `panic!`, arithmetic overflow,
  out-of-bounds indexing) is modelled as `Option.none`: the operation does
  not complete and returns no value.
* `f32` values are out of scope of every claim; a value stored in a `Real`
  row store is modelled by the numeric literal string that `f32::from_str`
  accepted (`parseF32Str`), so that which calls complete is still faithful.
* The read-only pretty printers (`print_table_schema`, `print_table_data`)
  are presentation collaborators that mutate nothing and are not modelled.
-/

namespace SQLRite

/-- Insert-or-replace into an association list, modelling `HashMap::insert`
and `BTreeMap::insert` (first occurrence of the key is replaced). -/
def alInsert {α β : Type} [DecidableEq α] : List (α × β) → α → β → List (α × β)
  | [], k, v => [(k, v)]
  | (k', v') :: rest, k, v =>
    if k' = k then (k, v) :: rest else (k', v') :: alInsert rest k v

/-- Lookup in an association list, modelling `HashMap::get` / `BTreeMap::get`;
`(alLookup m k).isSome` models `contains_key`. -/
def alLookup {α β : Type} [DecidableEq α] : List (α × β) → α → Option β
  | [], _ => none
  | (k', v') :: rest, k => if k' = k then some v' else alLookup rest k

/-- `DataType` from `src/sql/db/table.rs`. -/
inductive DataType
  | Integer
  | Text
  | Real
  | Bool
  | None
  | Invalid
deriving DecidableEq, Repr

/-- ASCII lowercasing of a string (the type names and literals the engine
compares are ASCII, where Rust's `to_lowercase` agrees). Defined by
structural recursion over the character list so that terms evaluate. -/
def rustToLower (s : String) : String := String.mk (s.data.map Char.toLower)

/-- Accumulate a digit list into a natural number. -/
def digitsToNat (l : List Char) : Nat :=
  l.foldl (fun acc c => acc * 10 + (c.toNat - 48)) 0

/-- Decimal integer syntax accepted by Rust's integer `parse`: an optional
sign followed by one or more digits (structural-recursion replacement for
`String.toInt?`, which does not evaluate in the kernel). -/
def strToInt? (s : String) : Option Int :=
  match s.data with
  | [] => none
  | '-' :: rest =>
    if rest ≠ [] ∧ rest.all (fun c => c.isDigit) then
      some (-(digitsToNat rest : Int))
    else none
  | '+' :: rest =>
    if rest ≠ [] ∧ rest.all (fun c => c.isDigit) then
      some ((digitsToNat rest : Int))
    else none
  | l =>
    if l.all (fun c => c.isDigit) then some ((digitsToNat l : Int)) else none

/-- `DataType::new` from `src/sql/db/table.rs` (match on the lowercased name;
anything unrecognized is `Invalid`). -/
def DataType.new (cmd : String) : DataType :=
  match rustToLower cmd with
  | "integer" => DataType.Integer
  | "text" => DataType.Text
  | "real" => DataType.Real
  | "bool" => DataType.Bool
  | "none" => DataType.None
  | _ => DataType.Invalid

/-- `i64::MAX`. -/
def i64max : Int := 9223372036854775807

/-- The Rust `as i32` cast of an `i64` value: two's-complement truncation to
32 bits. -/
def wrap32 (n : Int) : Int := (n + 2147483648) % 4294967296 - 2147483648

/-- `str::parse::<i32>()` as in the source (`Ok` iff the string is a decimal
integer in `i32` range), returning `none` where Rust returns `Err`. -/
def parseI32 (s : String) : Option Int :=
  match strToInt? s with
  | some n => if -2147483648 ≤ n ∧ n ≤ 2147483647 then some n else none
  | none => none

/-- `str::parse::<i64>()` (`Ok` iff decimal integer in `i64` range). -/
def parseI64 (s : String) : Option Int :=
  match strToInt? s with
  | some n => if -9223372036854775808 ≤ n ∧ n ≤ i64max then some n else none
  | none => none

/-- `str::parse::<bool>()`: exactly `"true"` or `"false"`. -/
def parseBool (s : String) : Option Bool :=
  if s = "true" then some true else if s = "false" then some false else none

/-- Whether a character list is nonempty and all digits. -/
def allDigits (l : List Char) : Bool := l.all (fun c => c.isDigit)

/-- Mantissa shape accepted by `f32::from_str`: digits with at most one
decimal point and at least one digit. -/
def mantissaOk (l : List Char) : Bool :=
  l.all (fun c => c.isDigit || c = '.') &&
    (l.filter (fun c => c = '.')).length ≤ 1 && l.any (fun c => c.isDigit)

/-- Exponent part (after `e`/`E`): optional sign then nonempty digits. -/
def expOk (l : List Char) : Bool :=
  match l with
  | [] => false
  | c :: rest =>
    if c = '+' ∨ c = '-' then allDigits rest && rest ≠ []
    else allDigits (c :: rest)

/-- Split a character list at the first `e`/`E`. -/
def splitExp : List Char → List Char × Option (List Char)
  | [] => ([], none)
  | c :: rest =>
    if c = 'e' ∨ c = 'E' then ([], some rest)
    else
      let (m, e) := splitExp rest
      (c :: m, e)

/-- `str::parse::<f32>()`, modelled as a recognizer of the accepted grammar;
the "value" kept for a `Real` row store is the accepted source string
(no claim concerns `f32` arithmetic). -/
def parseF32Str (s : String) : Option String :=
  let l :=
    match s.data with
    | c :: rest => if c = '+' ∨ c = '-' then rest else s.data
    | [] => []
  let low := l.map Char.toLower
  if low = "inf".data ∨ low = "infinity".data ∨ low = "nan".data then some s
  else
    match splitExp l with
    | (m, none) => if mantissaOk m then some s else none
    | (m, some e) => if mantissaOk m && expOk e then some s else none

/-- `Index` from `src/sql/db/table.rs`: `Integer(BTreeMap<i32, i64>)`,
`Text(BTreeMap<String, i64>)`, `None`. -/
inductive Index
  | Integer (m : List (Int × Int))
  | Text (m : List (String × Int))
  | None
deriving DecidableEq, Repr

/-- `Row` from `src/sql/db/table.rs`, the per-column row store keyed by
rowid (`i64`). `Real` values are represented by their accepted literal
string (see module comment). -/
inductive Row
  | Integer (m : List (Int × Int))
  | Text (m : List (Int × String))
  | Real (m : List (Int × String))
  | Bool (m : List (Int × Bool))
  | None
deriving DecidableEq, Repr

/-- `Column` from `src/sql/db/table.rs`. -/
structure Column where
  column_name : String
  datatype : DataType
  is_pk : Bool
  not_null : Bool
  is_unique : Bool
  is_indexed : Bool
  index : Index
deriving DecidableEq, Repr

/-- `Column::new` from `src/sql/db/table.rs`: only Integer and Text columns
get a usable index variant; `is_indexed` is set iff the column is the
primary key. -/
def Column.new (name : String) (datatype : String) (is_pk : Bool)
    (not_null : Bool) (is_unique : Bool) : Column :=
  let dt := DataType.new datatype
  let index :=
    match dt with
    | DataType.Integer => Index.Integer []
    | DataType.Bool => Index.None
    | DataType.Text => Index.Text []
    | DataType.Real => Index.None
    | DataType.Invalid => Index.None
    | DataType.None => Index.None
  { column_name := name
    datatype := dt
    is_pk := is_pk
    not_null := not_null
    is_unique := is_unique
    is_indexed := is_pk
    index := index }

/-- `Table` from `src/sql/db/table.rs`. `rows` models the
`Rc<RefCell<HashMap<String, Row>>>` row storage; `primary_key` is the
primary-key column name or the sentinel `"-1"`. -/
structure Table where
  tb_name : String
  columns : List Column
  rows : List (String × Row)
  indexes : List (String × String)
  last_rowid : Int
  primary_key : String
deriving DecidableEq, Repr

/-- `SQLRiteError` from `src/error.rs` (`SqlError`'s `ParserError` payload is
modelled by its debug string). -/
inductive SQLRiteError
  | NotImplemented (s : String)
  | General (s : String)
  | Internal (s : String)
  | SqlError (s : String)
deriving DecidableEq, Repr

/-- The `Display` implementation of `SQLRiteError` from `src/error.rs`. -/
def SQLRiteError.display : SQLRiteError → String
  | SQLRiteError.NotImplemented d => "Not implemented: " ++ d
  | SQLRiteError.General d => "General error: " ++ d
  | SQLRiteError.SqlError d => "SQL error: " ++ d
  | SQLRiteError.Internal d => "Internal SQLRite error: " ++ d

/-- `ParsedColumn` from `src/sql/parser/create.rs`. -/
structure ParsedColumn where
  name : String
  datatype : String
  is_pk : Bool
  not_null : Bool
  is_unique : Bool
deriving DecidableEq, Repr

/-- `CreateQuery` from `src/sql/parser/create.rs`. -/
structure CreateQuery where
  table_name : String
  columns : List ParsedColumn
deriving DecidableEq, Repr

/-- `Table::new` from `src/sql/db/table.rs`: builds the column metadata,
an empty per-column row store chosen by the column's `DataType`, records
the (last) primary-key column name, and starts `last_rowid` at 0. -/
def Table.new (create_query : CreateQuery) : Table :=
  let res := create_query.columns.foldl
    (fun (acc : String × List Column × List (String × Row)) col =>
      let pk := if col.is_pk then col.name else acc.1
      let cs := acc.2.1 ++
        [Column.new col.name col.datatype col.is_pk col.not_null col.is_unique]
      let rs :=
        match DataType.new col.datatype with
        | DataType.Integer => alInsert acc.2.2 col.name (Row.Integer [])
        | DataType.Real => alInsert acc.2.2 col.name (Row.Real [])
        | DataType.Text => alInsert acc.2.2 col.name (Row.Text [])
        | DataType.Bool => alInsert acc.2.2 col.name (Row.Bool [])
        | DataType.Invalid => alInsert acc.2.2 col.name Row.None
        | DataType.None => alInsert acc.2.2 col.name Row.None
      (pk, cs, rs))
    ("-1", [], [])
  { tb_name := create_query.table_name
    columns := res.2.1
    rows := res.2.2
    indexes := []
    last_rowid := 0
    primary_key := res.1 }

/-- `Table::contains_column`. -/
def Table.contains_column (t : Table) (column : String) : Bool :=
  t.columns.any (fun col => col.column_name == column)

/-- First column with the given name, as found by `Table::get_column` /
`Table::get_column_mut` (`none` models the `Err` / panicking `unwrap`). -/
def findColumn (cols : List Column) (name : String) : Option Column :=
  cols.find? (fun c => c.column_name == name)

/-- `Table::get_column_mut`'s lookup, on a table. -/
def Table.get_column (t : Table) (name : String) : Option Column :=
  findColumn t.columns name

/-- Apply `f` to the first column with the given name (the in-place mutation
through `get_column_mut`); identity when absent — the call sites reach this
only after a successful lookup. -/
def modifyColumn : List Column → String → (Column → Column) → List Column
  | [], _, _ => []
  | c :: cs, name, f =>
    if c.column_name = name then f c :: cs else c :: modifyColumn cs name f

/-- The error message of a unique-constraint violation, exactly as the
`format!` literal in `Table::validate_unique_constraint` (including its
embedded newline and indentation). -/
def uniqueViolationMsg (name val : String) : String :=
  "Error: unique constraint violation for column " ++ name ++
    ".\n                        Value " ++ val ++
    " already exists for column " ++ name

/-- The error message when a unique column has no usable index variant. -/
def cannotFindIndexMsg (name : String) : String :=
  "Error: cannot find index for column " ++ name

/-- Outcome of one iteration of the loop in
`Table::validate_unique_constraint`. -/
inductive VStep
  | panic
  | err (e : SQLRiteError)
  | ok
deriving DecidableEq, Repr

/-- One iteration of `Table::validate_unique_constraint` for the pairing of
column `name` with the value at the same position (`valOpt`; `none` means
the index into `values` is out of bounds, which panics when reached). -/
def vucStep (t : Table) (name : String) (valOpt : Option String) : VStep :=
  match t.get_column name with
  | none => VStep.panic
  | some column =>
    if column.is_unique && (name == column.column_name) then
      match valOpt with
      | none => VStep.panic
      | some val =>
        match column.index with
        | Index.Integer index =>
          match parseI32 val with
          | none => VStep.panic
          | some v =>
            if (alLookup index v).isSome then
              VStep.err (SQLRiteError.General (uniqueViolationMsg name val))
            else VStep.ok
        | Index.Text index =>
          if (alLookup index val).isSome then
            VStep.err (SQLRiteError.General (uniqueViolationMsg name val))
          else VStep.ok
        | Index.None =>
          VStep.err (SQLRiteError.General (cannotFindIndexMsg name))
    else VStep.ok

/-- `Table::validate_unique_constraint` from `src/sql/db/table.rs`: walk the
caller's column list positionally against the value list; the first
violation (or missing index) returns `Err`, a panic (missing column,
out-of-bounds value, unparseable value for an Integer index) is `none`.
The function reads state and never writes it. -/
def Table.validate_unique_constraint (t : Table) :
    List String → List String → Option (Except SQLRiteError Unit)
  | [], _ => some (Except.ok ())
  | name :: cs, values =>
    match vucStep t name values.head? with
    | VStep.panic => none
    | VStep.err e => some (Except.error e)
    | VStep.ok => t.validate_unique_constraint cs values.tail

/-- The scan in `Table::insert_row` that locates the explicitly supplied
primary-key value: every positional match re-parses and overwrites, so the
last occurrence wins; an out-of-bounds value index or a failed
`parse::<i64>` panics. -/
def scanPk (pk : String) : List String → List String → Int → Option Int
  | [], _, cur => some cur
  | c :: cs, vals, cur =>
    if c = pk then
      match vals.head? with
      | none => none
      | some v =>
        match parseI64 v with
        | none => none
        | some n => scanPk pk cs vals.tail n
    else scanPk pk cs vals.tail cur

/-- The write of one resolved value into one column's row store (and, for
`Integer`/`Text` stores whose column carries the matching index variant,
into that column's index), keyed by the row's rowid — the body of the main
loop of `Table::insert_row`. `none` models the panics: missing row store,
missing column, failed parse, or a `Row::None` store. -/
def insertOneData (rows : List (String × Row)) (columns : List Column)
    (cn : String) (val : String) (rid : Int) :
    Option (List (String × Row) × List Column) :=
  match alLookup rows cn with
  | none => none
  | some rowStore =>
    match findColumn columns cn with
    | none => none
    | some _ =>
      match rowStore with
      | Row.Integer tree =>
        match parseI32 val with
        | none => none
        | some v =>
          some (alInsert rows cn (Row.Integer (alInsert tree rid v)),
            modifyColumn columns cn (fun c =>
              match c.index with
              | Index.Integer idx =>
                { c with index := Index.Integer (alInsert idx v rid) }
              | _ => c))
      | Row.Text tree =>
        some (alInsert rows cn (Row.Text (alInsert tree rid val)),
          modifyColumn columns cn (fun c =>
            match c.index with
            | Index.Text idx =>
              { c with index := Index.Text (alInsert idx val rid) }
            | _ => c))
      | Row.Real tree =>
        match parseF32Str val with
        | none => none
        | some rv =>
          some (alInsert rows cn (Row.Real (alInsert tree rid rv)), columns)
      | Row.Bool tree =>
        match parseBool val with
        | none => none
        | some b =>
          some (alInsert rows cn (Row.Bool (alInsert tree rid b)), columns)
      | Row.None => none

/-- The loop body above, as a `Table` transformer. -/
def insertOne (t : Table) (cn : String) (val : String) (rid : Int) :
    Option Table :=
  (insertOneData t.rows t.columns cn val rid).map
    (fun p => { t with rows := p.1, columns := p.2 })

/-- The main loop of `Table::insert_row` (its step 3): iterate the table's
declared column names with a single forward cursor `j` into the caller's
`cols`/`values`; a positional match consumes the value, a mismatch or an
exhausted caller list substitutes the literal `"Null"`, and the primary-key
column is skipped in the mismatch/exhausted cases. -/
def step3go (pk : String) (cols values : List String) (rid : Int) :
    List String → Nat → Table → Option Table
  | [], _, t => some t
  | cn :: rest, j, t =>
    match cols[j]? with
    | some key =>
      if key = cn then
        match values[j]? with
        | none => none
        | some v =>
          match insertOne t cn v rid with
          | none => none
          | some t' => step3go pk cols values rid rest (j + 1) t'
      else
        if pk = cn then step3go pk cols values rid rest j t
        else
          match insertOne t cn "Null" rid with
          | none => none
          | some t' => step3go pk cols values rid rest j t'
    | none =>
      if pk = cn then step3go pk cols values rid rest j t
      else
        match insertOne t cn "Null" rid with
        | none => none
        | some t' => step3go pk cols values rid rest j t'

/-- Step 2 of `Table::insert_row`: primary-key handling. When the table has
a primary key that the caller's column list omits, auto-assign the
candidate rowid into an `Integer` primary-key row store (and its `Integer`
index); when the caller supplies it and the primary-key row store is the
`Integer` variant, scan for the supplied value and make it the rowid. -/
def insertRowStep2 (t : Table) (cols values : List String) (next0 : Int) :
    Option (Table × Int) :=
  if t.primary_key ≠ "-1" then
    if (cols.any (fun col => col == t.primary_key)) = false then
      match alLookup t.rows t.primary_key with
      | none => none
      | some rowStore =>
        match t.get_column t.primary_key with
        | none => none
        | some _ =>
          match rowStore with
          | Row.Integer tree =>
            let val := wrap32 next0
            some ({ t with
              rows := alInsert t.rows t.primary_key
                (Row.Integer (alInsert tree next0 val))
              columns := modifyColumn t.columns t.primary_key (fun c =>
                match c.index with
                | Index.Integer idx =>
                  { c with index := Index.Integer (alInsert idx val next0) }
                | _ => c) }, next0)
          | _ => some (t, next0)
    else
      match alLookup t.rows t.primary_key with
      | none => none
      | some rowStore =>
        match rowStore with
        | Row.Integer _ =>
          match scanPk t.primary_key cols values next0 with
          | none => none
          | some rid => some (t, rid)
        | _ => some (t, next0)
  else some (t, next0)

/-- `Table::insert_row` from `src/sql/db/table.rs`: candidate rowid is
`last_rowid + 1` (whose `i64` addition aborts on overflow), step 2 resolves
the primary key and the row's rowid, step 3 writes every declared column's
resolved value, and finally `last_rowid` is set to the rowid used. -/
def Table.insert_row (t : Table) (cols values : List String) : Option Table :=
  let next0 := t.last_rowid + 1
  if next0 > i64max then none
  else
    match insertRowStep2 t cols values next0 with
    | none => none
    | some (t1, rid) =>
      match step3go t1.primary_key cols values rid
          (t1.columns.map (fun c => c.column_name)) 0 t1 with
      | none => none
      | some t2 => some { t2 with last_rowid := rid }

/-- `Database` from `src/sql/db/database.rs`. -/
structure Database where
  db_name : String
  tables : List (String × Table)
deriving DecidableEq, Repr

/-- `Database::new`. -/
def Database.new (db_name : String) : Database :=
  { db_name := db_name, tables := [] }

/-- `Database::contains_table`. -/
def Database.contains_table (db : Database) (table_name : String) : Bool :=
  (alLookup db.tables table_name).isSome

/-- `InsertQuery` from `src/sql/parser/insert.rs` (already translated:
table name, caller column list, list of stringified value rows). -/
structure InsertQuery where
  table_name : String
  columns : List String
  rows : List (List String)
deriving DecidableEq, Repr

/-- The per-row loop of the INSERT branch of `process_command`
(`src/sql/mod.rs`): for each value row check the column/value count, run
the uniqueness validation (whose `Err` is wrapped in an `Internal` error
with the `Display` form of the inner error), and insert the row. The
returned table reflects every row inserted before a failure — `none` is a
panic inside validation or insertion. -/
def executeInsertRows (cols : List String) :
    Table → List (List String) → Option (Table × Except SQLRiteError Unit)
  | t, [] => some (t, Except.ok ())
  | t, value :: rest =>
    if value.length ≠ cols.length then
      some (t, Except.error (SQLRiteError.Internal
        (toString value.length ++ " values for " ++
          toString cols.length ++ " columns")))
    else
      match t.validate_unique_constraint cols value with
      | none => none
      | some (Except.error err) =>
        some (t, Except.error (SQLRiteError.Internal
          ("Unique key constaint violation: " ++ err.display)))
      | some (Except.ok _) =>
        match t.insert_row cols value with
        | none => none
        | some t' => executeInsertRows cols t' rest

/-- The INSERT branch of `process_command` (`src/sql/mod.rs`), from a
translated `InsertQuery`: table-existence check, column-existence check,
then the per-row loop; the database carries whatever the loop mutated.
The read-only `print_table_data` call is presentation and not modelled. -/
def process_insert (db : Database) (q : InsertQuery) :
    Option (Database × Except SQLRiteError String) :=
  if db.contains_table q.table_name then
    match alLookup db.tables q.table_name with
    | none => none
    | some db_table =>
      if q.columns.all (fun column => db_table.contains_column column) then
        match executeInsertRows q.columns db_table q.rows with
        | none => none
        | some (t', Except.error e) =>
          some ({ db with tables := alInsert db.tables q.table_name t' },
            Except.error e)
        | some (t', Except.ok _) =>
          some ({ db with tables := alInsert db.tables q.table_name t' },
            Except.ok "INSERT Statement executed.")
      else
        some (db, Except.error (SQLRiteError.Internal
          "Cannot insert, some of the columns do not exist"))
  else
    some (db, Except.error (SQLRiteError.Internal "Table doesn't exist"))

/-- The `sqlparser` data types matched by `CreateQuery::new`
(`src/sql/parser/create.rs`); every unlisted type is `OtherType`. -/
inductive SqlDataType
  | SmallInt
  | Int
  | BigInt
  | Boolean
  | Text
  | Varchar
  | Real
  | Float
  | Double
  | Decimal
  | OtherType (s : String)
deriving DecidableEq, Repr

/-- The type-name mapping of `CreateQuery::new`. -/
def mapDataType : SqlDataType → String
  | SqlDataType.SmallInt => "Integer"
  | SqlDataType.Int => "Integer"
  | SqlDataType.BigInt => "Integer"
  | SqlDataType.Boolean => "Bool"
  | SqlDataType.Text => "Text"
  | SqlDataType.Varchar => "Text"
  | SqlDataType.Real => "Real"
  | SqlDataType.Float => "Real"
  | SqlDataType.Double => "Real"
  | SqlDataType.Decimal => "Real"
  | SqlDataType.OtherType _ => "Invalid"

/-- The `sqlparser` column options matched by `CreateQuery::new`:
`Unique { is_primary }`, `NotNull`, and anything else. -/
inductive SqlColumnOption
  | Unique (is_primary : Bool)
  | NotNull
  | OtherOption
deriving DecidableEq, Repr

/-- A column declaration as handed to `CreateQuery::new` by the external
parser: name, declared type, declared options. -/
structure SqlColumnDef where
  name : String
  data_type : SqlDataType
  options : List SqlColumnOption
deriving DecidableEq, Repr

/-- Whether an option list contains `NotNull`. -/
def notNullIn (opts : List SqlColumnOption) : Bool :=
  opts.any (fun o =>
    match o with
    | SqlColumnOption.NotNull => true
    | _ => false)

/-- The option scan of `CreateQuery::new` for one column: fold the declared
options over the `(is_pk, is_unique, not_null)` flags. A `Unique` option is
honored only when the mapped type is neither `"Real"` nor `"Bool"`; a
primary-key option errors if an earlier parsed column is already the
primary key. -/
def scanOptions (table_name : String) (datatype : String)
    (parsed_columns : List ParsedColumn) :
    List SqlColumnOption → Bool → Bool → Bool →
    Except SQLRiteError (Bool × Bool × Bool)
  | [], is_pk, is_unique, not_null => Except.ok (is_pk, is_unique, not_null)
  | SqlColumnOption.Unique is_primary :: rest, is_pk, is_unique, not_null =>
    if datatype ≠ "Real" ∧ datatype ≠ "Bool" then
      if is_primary then
        if parsed_columns.any (fun col => col.is_pk) then
          Except.error (SQLRiteError.Internal
            ("Table '" ++ table_name ++ "' has more than one primary key"))
        else
          scanOptions table_name datatype parsed_columns rest is_primary true
            true
      else
        scanOptions table_name datatype parsed_columns rest is_primary true
          not_null
    else
      scanOptions table_name datatype parsed_columns rest is_pk is_unique
        not_null
  | SqlColumnOption.NotNull :: rest, is_pk, is_unique, _ =>
    scanOptions table_name datatype parsed_columns rest is_pk is_unique true
  | SqlColumnOption.OtherOption :: rest, is_pk, is_unique, not_null =>
    scanOptions table_name datatype parsed_columns rest is_pk is_unique
      not_null

/-- The column loop of `CreateQuery::new`: reject duplicate names, map the
type, scan the options, push the parsed column. -/
def buildColumns (table_name : String) :
    List SqlColumnDef → List ParsedColumn →
    Except SQLRiteError (List ParsedColumn)
  | [], acc => Except.ok acc
  | col :: rest, acc =>
    if acc.any (fun c => c.name == col.name) then
      Except.error (SQLRiteError.Internal
        ("Duplicate column name: " ++ col.name))
    else
      match scanOptions table_name (mapDataType col.data_type) acc
          col.options false false false with
      | Except.error e => Except.error e
      | Except.ok (is_pk, is_unique, not_null) =>
        buildColumns table_name rest
          (acc ++ [{ name := col.name
                     datatype := mapDataType col.data_type
                     is_pk := is_pk
                     not_null := not_null
                     is_unique := is_unique }])

/-- `CreateQuery::new` from `src/sql/parser/create.rs`, applied to a
CREATE-TABLE-shaped statement (table name plus column declarations). -/
def CreateQuery.new (table_name : String) (columns : List SqlColumnDef) :
    Except SQLRiteError CreateQuery :=
  match buildColumns table_name columns [] with
  | Except.error e => Except.error e
  | Except.ok cs => Except.ok { table_name := table_name, columns := cs }

/-- The CREATE TABLE branch of `process_command` (`src/sql/mod.rs`):
translate, fail fast if the catalog already has the name, otherwise
construct the `Table` and insert it. The read-only `print_table_schema`
call is presentation and not modelled. -/
def process_create (db : Database) (table_name : String)
    (columns : List SqlColumnDef) : Database × Except SQLRiteError String :=
  match CreateQuery.new table_name columns with
  | Except.error e => (db, Except.error e)
  | Except.ok payload =>
    if db.contains_table payload.table_name then
      (db, Except.error (SQLRiteError.Internal
        "Cannot create, table already exists."))
    else
      ({ db with
          tables := alInsert db.tables payload.table_name (Table.new payload) },
        Except.ok "CREATE TABLE Statement executed.")

/-- Typed view of one stored cell, for stating which rowids a mutation
touched. -/
inductive RowVal
  | VInt (n : Int)
  | VText (s : String)
  | VReal (s : String)
  | VBool (b : Bool)
deriving DecidableEq, Repr

/-- The cell of a row store at a rowid. -/
def rowAt (r : Row) (k : Int) : Option RowVal :=
  match r with
  | Row.Integer m => (alLookup m k).map RowVal.VInt
  | Row.Text m => (alLookup m k).map RowVal.VText
  | Row.Real m => (alLookup m k).map RowVal.VReal
  | Row.Bool m => (alLookup m k).map RowVal.VBool
  | Row.None => none

/-- The cell stored for column `cn` at rowid `k` in a rows map. -/
def rowsEntry (rows : List (String × Row)) (cn : String) (k : Int) :
    Option RowVal :=
  (alLookup rows cn).bind (fun r => rowAt r k)

/-- The cell stored for column `cn` at rowid `k` in a table. -/
def tableEntry (t : Table) (cn : String) (k : Int) : Option RowVal :=
  rowsEntry t.rows cn k

/-- Whether a column index already contains (the column-native parse of)
a value — the membership test of `validate_unique_constraint`. -/
def indexContainsVal (i : Index) (val : String) : Bool :=
  match i with
  | Index.Integer m =>
    match parseI32 val with
    | some v => (alLookup m v).isSome
    | none => false
  | Index.Text m => (alLookup m val).isSome
  | Index.None => false

deriving instance DecidableEq for Except

example : DataType.new "Integer" = DataType.Integer := by decide
example : parseI32 "2147483647" = some 2147483647 := by decide
example : parseI32 "xyz" = none := by decide
example : wrap32 2147483648 = -2147483648 := by decide
example : parseF32Str "2.5" = some "2.5" := by decide
example : parseF32Str "x" = none := by decide

/-! ### Association-list lemmas -/

theorem alLookup_alInsert_self {α β : Type} [DecidableEq α]
    (m : List (α × β)) (k : α) (v : β) :
    alLookup (alInsert m k v) k = some v := by
  induction m with
  | nil => simp [alInsert, alLookup]
  | cons hd tl ih =>
    obtain ⟨k', v'⟩ := hd
    by_cases h : k' = k <;> simp [alInsert, alLookup, h, ih]

theorem alLookup_alInsert_ne {α β : Type} [DecidableEq α]
    (m : List (α × β)) (k k' : α) (v : β) (h : k' ≠ k) :
    alLookup (alInsert m k v) k' = alLookup m k' := by
  have hks : ¬(k = k') := fun he => h he.symm
  induction m with
  | nil => simp [alInsert, alLookup, hks]
  | cons hd tl ih =>
    obtain ⟨k0, v0⟩ := hd
    by_cases h0 : k0 = k
    · subst h0
      simp [alInsert, alLookup, hks]
    · by_cases h1 : k0 = k' <;> simp [alInsert, alLookup, h0, h1, ih, h]

/-! ### Column-list lemmas -/

theorem findColumn_name {cols : List Column} {name : String} {c : Column}
    (h : findColumn cols name = some c) : c.column_name = name := by
  have := List.find?_some h
  simpa using this

theorem modifyColumn_findColumn_ne (cols : List Column) (name p : String)
    (f : Column → Column) (hf : ∀ c, (f c).column_name = c.column_name)
    (hne : p ≠ name) :
    findColumn (modifyColumn cols name f) p = findColumn cols p := by
  have hnp : ¬(name = p) := fun he => hne he.symm
  induction cols with
  | nil => simp [modifyColumn]
  | cons c cs ih =>
    by_cases h : c.column_name = name
    · have hfc : (f c).column_name = name := by rw [hf]; exact h
      have h1 : ((f c).column_name == p) = false := by
        rw [hfc]; simpa using hnp
      have h2 : (c.column_name == p) = false := by
        rw [h]; simpa using hnp
      have h4 : (name == p) = false := by simpa using hnp
      simp [modifyColumn, h, findColumn, List.find?, h1, h2, h4]
    · by_cases h3 : c.column_name = p
      · simp [modifyColumn, h, findColumn, List.find?, h3, hne]
      · have h1 : (c.column_name == p) = false := by simpa using h3
        simpa [modifyColumn, h, findColumn, List.find?, h1] using ih

theorem modifyColumn_preserves_names (cols : List Column) (name : String)
    (f : Column → Column) (hf : ∀ c, (f c).column_name = c.column_name) :
    (modifyColumn cols name f).map (fun c => c.column_name) =
      cols.map (fun c => c.column_name) := by
  induction cols with
  | nil => simp [modifyColumn]
  | cons c cs ih =>
    by_cases h : c.column_name = name <;> simp [modifyColumn, h, hf, ih]

theorem modifyColumn_findColumn_self (cols : List Column) (name : String)
    (f : Column → Column) (hf : ∀ c, (f c).column_name = c.column_name) :
    findColumn (modifyColumn cols name f) name =
      (findColumn cols name).map f := by
  induction cols with
  | nil => simp [modifyColumn, findColumn]
  | cons c cs ih =>
    by_cases h : c.column_name = name
    · have hfc : (f c).column_name = name := by rw [hf]; exact h
      simp [modifyColumn, h, findColumn, List.find?, hfc]
    · have h1 : (c.column_name == name) = false := by simp [h]
      simpa [modifyColumn, h, findColumn, List.find?, h1] using ih

/-! ### Lemmas about one write (`insertOne`) -/

theorem insertOne_eq {t : Table} {cn val : String} {rid : Int} {t' : Table}
    (h : insertOne t cn val rid = some t') :
    ∃ p, insertOneData t.rows t.columns cn val rid = some p ∧
      t' = { t with rows := p.1, columns := p.2 } := by
  unfold insertOne at h
  rw [Option.map_eq_some'] at h
  obtain ⟨p, hp, he⟩ := h
  exact ⟨p, hp, he.symm⟩

theorem insertOneData_entry_ne {rows : List (String × Row)}
    {columns : List Column} {cn val : String} {rid : Int}
    {p : List (String × Row) × List Column}
    (h : insertOneData rows columns cn val rid = some p)
    (q : String) (k : Int) (hk : k ≠ rid) :
    rowsEntry p.1 q k = rowsEntry rows q k := by
  unfold insertOneData at h
  cases h1 : alLookup rows cn with
  | none => rw [h1] at h; exact absurd h (by simp)
  | some rowStore =>
    rw [h1] at h
    cases h2 : findColumn columns cn with
    | none => rw [h2] at h; exact absurd h (by simp)
    | some col =>
      rw [h2] at h
      cases rowStore with
      | Integer tree =>
        cases h3 : parseI32 val with
        | none => rw [h3] at h; exact absurd h (by simp)
        | some v =>
          rw [h3] at h
          obtain rfl := Option.some.inj h
          by_cases hq : q = cn
          · subst hq
            simp [rowsEntry, alLookup_alInsert_self, h1, rowAt,
              alLookup_alInsert_ne _ _ _ _ hk]
          · simp [rowsEntry, alLookup_alInsert_ne _ _ _ _ hq]
      | Text tree =>
        obtain rfl := Option.some.inj h
        by_cases hq : q = cn
        · subst hq
          simp [rowsEntry, alLookup_alInsert_self, h1, rowAt,
            alLookup_alInsert_ne _ _ _ _ hk]
        · simp [rowsEntry, alLookup_alInsert_ne _ _ _ _ hq]
      | Real tree =>
        cases h3 : parseF32Str val with
        | none => rw [h3] at h; exact absurd h (by simp)
        | some rv =>
          rw [h3] at h
          obtain rfl := Option.some.inj h
          by_cases hq : q = cn
          · subst hq
            simp [rowsEntry, alLookup_alInsert_self, h1, rowAt,
              alLookup_alInsert_ne _ _ _ _ hk]
          · simp [rowsEntry, alLookup_alInsert_ne _ _ _ _ hq]
      | Bool tree =>
        cases h3 : parseBool val with
        | none => rw [h3] at h; exact absurd h (by simp)
        | some b =>
          rw [h3] at h
          obtain rfl := Option.some.inj h
          by_cases hq : q = cn
          · subst hq
            simp [rowsEntry, alLookup_alInsert_self, h1, rowAt,
              alLookup_alInsert_ne _ _ _ _ hk]
          · simp [rowsEntry, alLookup_alInsert_ne _ _ _ _ hq]
      | None => exact absurd h (by simp)

theorem insertOneData_away {rows : List (String × Row)}
    {columns : List Column} {cn val : String} {rid : Int}
    {p : List (String × Row) × List Column}
    (h : insertOneData rows columns cn val rid = some p)
    (q : String) (hq : q ≠ cn) :
    alLookup p.1 q = alLookup rows q ∧
      findColumn p.2 q = findColumn columns q := by
  unfold insertOneData at h
  cases h1 : alLookup rows cn with
  | none => rw [h1] at h; exact absurd h (by simp)
  | some rowStore =>
    rw [h1] at h
    cases h2 : findColumn columns cn with
    | none => rw [h2] at h; exact absurd h (by simp)
    | some col =>
      rw [h2] at h
      cases rowStore with
      | Integer tree =>
        cases h3 : parseI32 val with
        | none => rw [h3] at h; exact absurd h (by simp)
        | some v =>
          rw [h3] at h
          obtain rfl := Option.some.inj h
          refine ⟨alLookup_alInsert_ne _ _ _ _ hq, ?_⟩
          exact modifyColumn_findColumn_ne _ _ _ _
            (by intro c; cases hh : c.index <;> simp [hh]) hq
      | Text tree =>
        obtain rfl := Option.some.inj h
        refine ⟨alLookup_alInsert_ne _ _ _ _ hq, ?_⟩
        exact modifyColumn_findColumn_ne _ _ _ _
          (by intro c; cases hh : c.index <;> simp [hh]) hq
      | Real tree =>
        cases h3 : parseF32Str val with
        | none => rw [h3] at h; exact absurd h (by simp)
        | some rv =>
          rw [h3] at h
          obtain rfl := Option.some.inj h
          exact ⟨alLookup_alInsert_ne _ _ _ _ hq, rfl⟩
      | Bool tree =>
        cases h3 : parseBool val with
        | none => rw [h3] at h; exact absurd h (by simp)
        | some b =>
          rw [h3] at h
          obtain rfl := Option.some.inj h
          exact ⟨alLookup_alInsert_ne _ _ _ _ hq, rfl⟩
      | None => exact absurd h (by simp)

/-! ### Lemmas about the main insertion loop (`step3go`) -/

/-- Combined invariant of the main loop: scalar fields are untouched, no
row-store cell at a rowid other than the row's rowid changes, and when the
caller's column list does not name `pk`, the `pk` row store and the first
`pk` column are untouched. -/
theorem step3go_spec (pk : String) (cols values : List String) (rid : Int) :
    ∀ (names : List String) (j : Nat) (t t2 : Table),
      step3go pk cols values rid names j t = some t2 →
      (t2.primary_key = t.primary_key ∧ t2.last_rowid = t.last_rowid) ∧
      (∀ q k, k ≠ rid → tableEntry t2 q k = tableEntry t q k) ∧
      ((cols.any (fun c => c == pk)) = false →
        alLookup t2.rows pk = alLookup t.rows pk ∧
          findColumn t2.columns pk = findColumn t.columns pk)
  | [], _, t, t2, h => by
    simp only [step3go, Option.some.injEq] at h
    subst h
    exact ⟨⟨rfl, rfl⟩, fun _ _ _ => rfl, fun _ => ⟨rfl, rfl⟩⟩
  | cn :: rest, j, t, t2, h => by
    rw [step3go] at h
    cases h1 : cols[j]? with
    | some key =>
      simp only [h1] at h
      by_cases h2 : key = cn
      · rw [if_pos h2] at h
        cases h3 : values[j]? with
        | none => simp only [h3] at h; exact absurd h (by simp)
        | some v =>
          simp only [h3] at h
          cases h4 : insertOne t cn v rid with
          | none => simp only [h4] at h; exact absurd h (by simp)
          | some t' =>
            simp only [h4] at h
            have ih := step3go_spec pk cols values rid rest (j + 1) t' t2 h
            obtain ⟨p, hp, rfl⟩ := insertOne_eq h4
            refine ⟨⟨ih.1.1, ih.1.2⟩, ?_, ?_⟩
            · intro q k hk
              rw [ih.2.1 q k hk]
              simpa [tableEntry] using insertOneData_entry_ne hp q k hk
            · intro hno
              have hall : ∀ x ∈ cols, ¬ x = pk := by simpa using hno
              have hm : key ∈ cols := List.getElem?_mem h1
              have hkey : cn ≠ pk := by rw [← h2]; exact hall key hm
              have haway := insertOneData_away hp pk (Ne.symm hkey)
              have ihp := ih.2.2 hno
              exact ⟨by rw [ihp.1]; exact haway.1, by rw [ihp.2]; exact haway.2⟩
      · rw [if_neg h2] at h
        by_cases h5 : pk = cn
        · rw [if_pos h5] at h
          exact step3go_spec pk cols values rid rest j t t2 h
        · rw [if_neg h5] at h
          cases h4 : insertOne t cn "Null" rid with
          | none => simp only [h4] at h; exact absurd h (by simp)
          | some t' =>
            simp only [h4] at h
            have ih := step3go_spec pk cols values rid rest j t' t2 h
            obtain ⟨p, hp, rfl⟩ := insertOne_eq h4
            refine ⟨⟨ih.1.1, ih.1.2⟩, ?_, ?_⟩
            · intro q k hk
              rw [ih.2.1 q k hk]
              simpa [tableEntry] using insertOneData_entry_ne hp q k hk
            · intro hno
              have haway := insertOneData_away hp pk h5
              have ihp := ih.2.2 hno
              exact ⟨by rw [ihp.1]; exact haway.1, by rw [ihp.2]; exact haway.2⟩
    | none =>
      simp only [h1] at h
      by_cases h5 : pk = cn
      · rw [if_pos h5] at h
        exact step3go_spec pk cols values rid rest j t t2 h
      · rw [if_neg h5] at h
        cases h4 : insertOne t cn "Null" rid with
        | none => simp only [h4] at h; exact absurd h (by simp)
        | some t' =>
          simp only [h4] at h
          have ih := step3go_spec pk cols values rid rest j t' t2 h
          obtain ⟨p, hp, rfl⟩ := insertOne_eq h4
          refine ⟨⟨ih.1.1, ih.1.2⟩, ?_, ?_⟩
          · intro q k hk
            rw [ih.2.1 q k hk]
            simpa [tableEntry] using insertOneData_entry_ne hp q k hk
          · intro hno
            have haway := insertOneData_away hp pk h5
            have ihp := ih.2.2 hno
            exact ⟨by rw [ihp.1]; exact haway.1, by rw [ihp.2]; exact haway.2⟩

/-! ### Lemmas about primary-key handling (`insertRowStep2`) -/

/-- When the statement supplies no explicit primary-key value (no primary
key, or the caller's column list does not name it), step 2 keeps the
candidate rowid, and only ever writes at that rowid. -/
theorem insertRowStep2_no_name {t : Table} {cols values : List String}
    {n : Int} {t1 : Table} {rid : Int}
    (hp : t.primary_key = "-1" ∨
      (cols.any (fun col => col == t.primary_key)) = false)
    (h : insertRowStep2 t cols values n = some (t1, rid)) :
    rid = n ∧ t1.primary_key = t.primary_key ∧
      t1.last_rowid = t.last_rowid ∧
      (∀ q k, k ≠ n → tableEntry t1 q k = tableEntry t q k) := by
  by_cases hpk : t.primary_key = "-1"
  · unfold insertRowStep2 at h
    simp only [hpk] at h
    simp only [ne_eq, not_true_eq_false, if_false, reduceIte,
      Option.some.injEq, Prod.mk.injEq] at h
    obtain ⟨rfl, rfl⟩ := h
    exact ⟨rfl, rfl, rfl, fun _ _ _ => rfl⟩
  · have hmem : (cols.any (fun col => col == t.primary_key)) = false := by
      rcases hp with hp | hp
      · exact absurd hp hpk
      · exact hp
    unfold insertRowStep2 at h
    rw [if_pos hpk] at h
    simp only [hmem, if_pos rfl, if_true] at h
    cases h1 : alLookup t.rows t.primary_key with
    | none =>
      simp only [h1] at h
      exact absurd h (by simp)
    | some rowStore =>
      simp only [h1] at h
      cases h2 : t.get_column t.primary_key with
      | none =>
        simp only [h2] at h
        exact absurd h (by simp)
      | some col =>
        simp only [h2] at h
        cases rowStore with
        | Integer tree =>
          simp only [Option.some.injEq, Prod.mk.injEq] at h
          obtain ⟨rfl, rfl⟩ := h
          refine ⟨rfl, rfl, rfl, ?_⟩
          intro q k hk
          by_cases hq : q = t.primary_key
          · subst hq
            simp [tableEntry, rowsEntry, alLookup_alInsert_self, h1, rowAt,
              alLookup_alInsert_ne _ _ _ _ hk]
          · simp [tableEntry, rowsEntry, alLookup_alInsert_ne _ _ _ _ hq]
        | Text tree =>
          simp only [Option.some.injEq, Prod.mk.injEq] at h
          obtain ⟨rfl, rfl⟩ := h
          exact ⟨rfl, rfl, rfl, fun _ _ _ => rfl⟩
        | Real tree =>
          simp only [Option.some.injEq, Prod.mk.injEq] at h
          obtain ⟨rfl, rfl⟩ := h
          exact ⟨rfl, rfl, rfl, fun _ _ _ => rfl⟩
        | Bool tree =>
          simp only [Option.some.injEq, Prod.mk.injEq] at h
          obtain ⟨rfl, rfl⟩ := h
          exact ⟨rfl, rfl, rfl, fun _ _ _ => rfl⟩
        | None =>
          simp only [Option.some.injEq, Prod.mk.injEq] at h
          obtain ⟨rfl, rfl⟩ := h
          exact ⟨rfl, rfl, rfl, fun _ _ _ => rfl⟩

/-- When the caller's column list names the primary key and the primary-key
row store is the `Integer` variant, step 2 leaves the table unchanged and
takes the rowid from the scan of the supplied value. -/
theorem insertRowStep2_named_int {t : Table} {cols values : List String}
    {n : Int} {tree : List (Int × Int)}
    (hpk : t.primary_key ≠ "-1")
    (hmem : (cols.any (fun col => col == t.primary_key)) = true)
    (hrows : alLookup t.rows t.primary_key = some (Row.Integer tree)) :
    insertRowStep2 t cols values n =
      (scanPk t.primary_key cols values n).map (fun rid => (t, rid)) := by
  unfold insertRowStep2
  rw [if_pos hpk]
  rw [hmem]
  simp only [Bool.true_eq_false, if_false, reduceIte, hrows]
  cases hs : scanPk t.primary_key cols values n <;> simp [hs]

/-- When the caller's column list names the primary key but the primary-key
row store is not the `Integer` variant, step 2 changes nothing and keeps
the candidate rowid. -/
theorem insertRowStep2_named_other {t : Table} {cols values : List String}
    {n : Int} {r : Row}
    (hpk : t.primary_key ≠ "-1")
    (hmem : (cols.any (fun col => col == t.primary_key)) = true)
    (hrows : alLookup t.rows t.primary_key = some r)
    (hni : ∀ m, r ≠ Row.Integer m) :
    insertRowStep2 t cols values n = some (t, n) := by
  unfold insertRowStep2
  rw [if_pos hpk]
  rw [hmem]
  simp only [Bool.true_eq_false, if_false, reduceIte, hrows]

/-- The auto-assign branch of step 2, fully computed: with an
`Integer`-variant primary-key row store and an existing primary-key column,
the candidate rowid is written (truncated to 32 bits) into the primary-key
row store and that column's `Integer` index. -/
theorem insertRowStep2_auto_int {t : Table} {cols values : List String}
    {n : Int} {tree : List (Int × Int)} {col : Column}
    (hpk : t.primary_key ≠ "-1")
    (hmem : (cols.any (fun col => col == t.primary_key)) = false)
    (hrows : alLookup t.rows t.primary_key = some (Row.Integer tree))
    (hcol : t.get_column t.primary_key = some col) :
    insertRowStep2 t cols values n =
      some ({ t with
        rows := alInsert t.rows t.primary_key
          (Row.Integer (alInsert tree n (wrap32 n)))
        columns := modifyColumn t.columns t.primary_key (fun c =>
          match c.index with
          | Index.Integer idx =>
            { c with index := Index.Integer (alInsert idx (wrap32 n) n) }
          | _ => c) }, n) := by
  unfold insertRowStep2
  rw [if_pos hpk]
  simp only [hmem, if_pos rfl, if_true, hrows, hcol]

/-! ### Structure of `Table.insert_row` -/

theorem insert_row_eq {t : Table} {cols values : List String} {t' : Table}
    (h : t.insert_row cols values = some t') :
    ¬ (t.last_rowid + 1 > i64max) ∧
    ∃ t1 rid t2,
      insertRowStep2 t cols values (t.last_rowid + 1) = some (t1, rid) ∧
      step3go t1.primary_key cols values rid
        (t1.columns.map (fun c => c.column_name)) 0 t1 = some t2 ∧
      t' = { t2 with last_rowid := rid } := by
  unfold Table.insert_row at h
  by_cases hov : t.last_rowid + 1 > i64max
  · rw [if_pos hov] at h; exact absurd h (by simp)
  · rw [if_neg hov] at h
    cases h1 : insertRowStep2 t cols values (t.last_rowid + 1) with
    | none =>
      simp only [h1] at h
      exact absurd h (by simp)
    | some pr =>
      obtain ⟨t1, rid⟩ := pr
      simp only [h1] at h
      cases h2 : step3go t1.primary_key cols values rid
          (t1.columns.map (fun c => c.column_name)) 0 t1 with
      | none =>
        simp only [h2] at h
        exact absurd h (by simp)
      | some t2 =>
        simp only [h2, Option.some.injEq] at h
        exact ⟨hov, t1, rid, t2, rfl, h2, h.symm⟩

/-- An insertion that does not supply an explicit primary-key value and
completes sets `last_rowid` to exactly `last_rowid + 1` and leaves the
primary-key name unchanged. -/
theorem insert_row_no_name {t : Table} {cols values : List String}
    {t' : Table}
    (hp : t.primary_key = "-1" ∨
      (cols.any (fun col => col == t.primary_key)) = false)
    (h : t.insert_row cols values = some t') :
    t'.last_rowid = t.last_rowid + 1 ∧ t'.primary_key = t.primary_key := by
  obtain ⟨-, t1, rid, t2, h1, h2, rfl⟩ := insert_row_eq h
  obtain ⟨rfl, hpk1, -, -⟩ := insertRowStep2_no_name hp h1
  have h3 := (step3go_spec _ cols values _ _ _ _ _ h2).1.1
  exact ⟨rfl, by rw [h3, hpk1]⟩

/-- The auto-assign branch of step 2, as the facts the claims need:
rowid kept, scalar fields kept, and the primary-key store/column updated
with the truncated rowid. -/
theorem insertRowStep2_auto_facts {t : Table} {cols values : List String}
    {n : Int} {tree : List (Int × Int)} {col : Column}
    {idx : List (Int × Int)} {t1 : Table} {rid : Int}
    (hpk : t.primary_key ≠ "-1")
    (hmem : (cols.any (fun col => col == t.primary_key)) = false)
    (hrows : alLookup t.rows t.primary_key = some (Row.Integer tree))
    (hcol : t.get_column t.primary_key = some col)
    (hidx : col.index = Index.Integer idx)
    (h : insertRowStep2 t cols values n = some (t1, rid)) :
    rid = n ∧ t1.primary_key = t.primary_key ∧
    alLookup t1.rows t.primary_key
      = some (Row.Integer (alInsert tree n (wrap32 n))) ∧
    findColumn t1.columns t.primary_key
      = some { col with
          index := Index.Integer (alInsert idx (wrap32 n) n) } := by
  rw [insertRowStep2_auto_int hpk hmem hrows hcol] at h
  simp only [Option.some.injEq, Prod.mk.injEq] at h
  obtain ⟨ht1, hrid⟩ := h
  subst hrid
  refine ⟨rfl, by rw [← ht1], ?_, ?_⟩
  · rw [← ht1]
    exact alLookup_alInsert_self _ _ _
  · rw [← ht1]
    have hms := modifyColumn_findColumn_self t.columns t.primary_key
      (fun c =>
        match c.index with
        | Index.Integer i =>
          { c with index := Index.Integer (alInsert i (wrap32 n) n) }
        | _ => c)
      (by intro c; cases hh : c.index <;> simp [hh])
    refine hms.trans ?_
    rw [show findColumn t.columns t.primary_key = some col from hcol]
    simp only [Option.map_some', hidx]

/-! ### Lemmas about `validate_unique_constraint` -/

/-- Processing a prefix of the column list that validates cleanly leaves the
rest of the walk unchanged (each iteration consumes exactly one position of
the value list). -/
theorem vuc_extend (t : Table) :
    ∀ (pre vpre l w : List String),
      vpre.length = pre.length →
      t.validate_unique_constraint pre vpre = some (Except.ok ()) →
      t.validate_unique_constraint (pre ++ l) (vpre ++ w) =
        t.validate_unique_constraint l w
  | [], vpre, l, w, hlen, _ => by
    have : vpre = [] := List.eq_nil_of_length_eq_zero (by simpa using hlen)
    subst this
    rfl
  | name :: cs, vpre, l, w, hlen, hok => by
    cases vpre with
    | nil => simp at hlen
    | cons v vs =>
      have hlen' : vs.length = cs.length := by simpa using hlen
      simp only [Table.validate_unique_constraint] at hok
      cases hstep : vucStep t name (v :: vs).head? with
      | panic => rw [hstep] at hok; exact absurd hok (by simp)
      | err e =>
        rw [hstep] at hok
        simp only [Option.some.injEq] at hok
        exact absurd hok (by simp)
      | ok =>
        rw [hstep] at hok
        have hstep2 : vucStep t name (some v) = VStep.ok := by
          simpa using hstep
        have := vuc_extend t cs vs l w hlen' (by simpa using hok)
        calc t.validate_unique_constraint ((name :: cs) ++ l) ((v :: vs) ++ w)
            = t.validate_unique_constraint (cs ++ l) (vs ++ w) := by
              simp only [List.cons_append, Table.validate_unique_constraint,
                List.head?_cons, List.tail_cons, hstep2, List.append_eq]
          _ = t.validate_unique_constraint l w := this

/-- A pairing whose unique column's index already contains the value steps
to exactly the unique-violation error naming that column and value. -/
theorem vucStep_violation {t : Table} {name val : String} {c : Column}
    (hc : t.get_column name = some c) (hu : c.is_unique = true)
    (hin : indexContainsVal c.index val = true) :
    vucStep t name (some val) =
      VStep.err (SQLRiteError.General (uniqueViolationMsg name val)) := by
  have hn : c.column_name = name := findColumn_name hc
  unfold vucStep
  simp only [hc]
  rw [hu, hn]
  simp only [Bool.true_and, beq_self_eq_true, reduceIte]
  cases hidx : c.index with
  | Integer m =>
    rw [hidx] at hin
    cases hp : parseI32 val with
    | none => simp [indexContainsVal, hp] at hin
    | some v =>
      simp only [indexContainsVal, hp] at hin
      simp only [hin, if_true, reduceIte]
  | Text m =>
    rw [hidx] at hin
    simp only [indexContainsVal] at hin
    simp only [hin, if_true, reduceIte]
  | None =>
    rw [hidx] at hin
    simp [indexContainsVal] at hin

/-- A pairing whose column is unique but carries the `None` index variant
steps to the missing-index error naming that column. -/
theorem vucStep_noindex {t : Table} {name val : String} {c : Column}
    (hc : t.get_column name = some c) (hu : c.is_unique = true)
    (hidx : c.index = Index.None) :
    vucStep t name (some val) =
      VStep.err (SQLRiteError.General (cannotFindIndexMsg name)) := by
  have hn : c.column_name = name := findColumn_name hc
  unfold vucStep
  simp only [hc]
  rw [hu, hn, hidx]
  simp only [Bool.true_and, beq_self_eq_true, reduceIte]

/-! ### Lemmas about `CreateQuery::new` -/

/-- With a primary key already parsed, any honored primary-key option
errors with the more-than-one-primary-key message, whatever the current
flags are. -/
theorem scanOptions_second_pk {tn dt : String}
    {parsed : List ParsedColumn}
    (hdt : ¬(dt = "Real") ∧ ¬(dt = "Bool"))
    (hpk : parsed.any (fun col => col.is_pk) = true) :
    ∀ (opts : List SqlColumnOption), SqlColumnOption.Unique true ∈ opts →
      ∀ a b c, scanOptions tn dt parsed opts a b c =
        Except.error (SQLRiteError.Internal
          ("Table '" ++ tn ++ "' has more than one primary key"))
  | [], hopt => absurd hopt (by simp)
  | SqlColumnOption.Unique ip :: rest, hopt => by
    intro a b c
    cases ip with
    | true =>
      rw [scanOptions, if_pos hdt]
      simp only [reduceIte]
      rw [if_pos hpk]
    | false =>
      have hopt' : SqlColumnOption.Unique true ∈ rest := by
        rcases List.mem_cons.mp hopt with he | hm
        · exact absurd he (by simp)
        · exact hm
      rw [scanOptions, if_pos hdt]
      rw [if_neg Bool.false_ne_true]
      exact scanOptions_second_pk hdt hpk rest hopt' false true c
  | SqlColumnOption.NotNull :: rest, hopt => by
    intro a b c
    have hopt' : SqlColumnOption.Unique true ∈ rest := by
      rcases List.mem_cons.mp hopt with he | hm
      · exact absurd he (by simp)
      · exact hm
    rw [scanOptions]
    exact scanOptions_second_pk hdt hpk rest hopt' a b true
  | SqlColumnOption.OtherOption :: rest, hopt => by
    intro a b c
    have hopt' : SqlColumnOption.Unique true ∈ rest := by
      rcases List.mem_cons.mp hopt with he | hm
      · exact absurd he (by simp)
      · exact hm
    rw [scanOptions]
    exact scanOptions_second_pk hdt hpk rest hopt' a b c

/-- For a `Real`/`Bool` column every `Unique` option (primary or not) is
skipped: the flags survive except that `NotNull` still sets `not_null`. -/
theorem scanOptions_demoted {tn dt : String} {parsed : List ParsedColumn}
    (hdt : dt = "Real" ∨ dt = "Bool") :
    ∀ (opts : List SqlColumnOption) (a b c : Bool),
      scanOptions tn dt parsed opts a b c =
        Except.ok (a, b, c || notNullIn opts)
  | [], a, b, c => by simp [scanOptions, notNullIn]
  | SqlColumnOption.Unique ip :: rest, a, b, c => by
    have hcond : ¬(¬(dt = "Real") ∧ ¬(dt = "Bool")) := by
      rcases hdt with h | h <;> simp [h]
    rw [scanOptions]
    rw [if_neg hcond]
    rw [scanOptions_demoted hdt rest a b c]
    have : notNullIn (SqlColumnOption.Unique ip :: rest) = notNullIn rest := by
      simp [notNullIn]
    rw [this]
  | SqlColumnOption.NotNull :: rest, a, b, c => by
    rw [scanOptions]
    rw [scanOptions_demoted hdt rest a b true]
    have : notNullIn (SqlColumnOption.NotNull :: rest) = true := by
      simp [notNullIn]
    rw [this]
    simp
  | SqlColumnOption.OtherOption :: rest, a, b, c => by
    rw [scanOptions]
    rw [scanOptions_demoted hdt rest a b c]
    have : notNullIn (SqlColumnOption.OtherOption :: rest) = notNullIn rest := by
      simp [notNullIn]
    rw [this]

/-- Columns already translated successfully are an evaluation context for
the rest of the statement. -/
theorem buildColumns_append (tn : String) :
    ∀ (xs : List SqlColumnDef) (acc acc' : List ParsedColumn),
      buildColumns tn xs acc = Except.ok acc' →
      ∀ ys, buildColumns tn (xs ++ ys) acc = buildColumns tn ys acc'
  | [], acc, acc', h, ys => by
    rw [buildColumns] at h
    simp only [Except.ok.injEq] at h
    subst h
    rfl
  | col :: rest, acc, acc', h, ys => by
    rw [buildColumns] at h
    by_cases hdup : (acc.any (fun c => c.name == col.name)) = true
    · rw [if_pos hdup] at h; exact absurd h (by simp)
    · rw [if_neg hdup] at h
      cases hscan : scanOptions tn (mapDataType col.data_type) acc
          col.options false false false with
      | error e => rw [hscan] at h; exact absurd h (by simp)
      | ok triple =>
        obtain ⟨is_pk, is_unique, not_null⟩ := triple
        rw [hscan] at h
        have hgoal :
            buildColumns tn ((col :: rest) ++ ys) acc =
              buildColumns tn (rest ++ ys)
                (acc ++ [{ name := col.name
                           datatype := mapDataType col.data_type
                           is_pk := is_pk
                           not_null := not_null
                           is_unique := is_unique }]) := by
          rw [List.cons_append, buildColumns, if_neg hdup, hscan]
        rw [hgoal]
        exact buildColumns_append tn rest _ acc' h ys

/-! ### Concrete tables and databases used by witnesses and
counterexamples -/

/-- A one-column schema: `id INTEGER PRIMARY KEY`. -/
def pkCreate : CreateQuery :=
  { table_name := "t"
    columns := [{ name := "id", datatype := "Integer", is_pk := true,
                  not_null := true, is_unique := true }] }

def pkT0 : Table := Table.new pkCreate

def pkT1 : Table := (pkT0.insert_row ["id"] ["5"]).getD pkT0

def pkT2 : Table := (pkT1.insert_row ["id"] ["2"]).getD pkT1

/-- The `id` column of `pkT0`. -/
def pkCol : Column := Column.new "id" "Integer" true true true

/-- Schema `a INTEGER, b TEXT UNIQUE` (column `a` is not unique, so the
walk of `validate_unique_constraint` passes it untouched). -/
def abCreate : CreateQuery :=
  { table_name := "t"
    columns := [{ name := "a", datatype := "Integer", is_pk := false,
                  not_null := false, is_unique := false },
                { name := "b", datatype := "Text", is_pk := false,
                  not_null := false, is_unique := true }] }

/-- The `a INTEGER, b TEXT UNIQUE` table after inserting the row
`(1, "dup")`, so `"dup"` is in `b`'s index. -/
def abT : Table :=
  ((Table.new abCreate).insert_row ["a", "b"] ["1", "dup"]).getD
    (Table.new abCreate)

/-- The `b` column of `abT`. -/
def abColB : Column :=
  { column_name := "b", datatype := DataType.Text, is_pk := false,
    not_null := false, is_unique := true, is_indexed := false,
    index := Index.Text [("dup", 1)] }

/-- Schema `a INTEGER UNIQUE, b TEXT UNIQUE` after inserting `(1, "dup")`:
used to show the walk panics on an unparseable value for `a` before it
reaches the violation on `b`. -/
def auCreate : CreateQuery :=
  { table_name := "t"
    columns := [{ name := "a", datatype := "Integer", is_pk := false,
                  not_null := false, is_unique := true },
                { name := "b", datatype := "Text", is_pk := false,
                  not_null := false, is_unique := true }] }

def auT : Table :=
  ((Table.new auCreate).insert_row ["a", "b"] ["1", "dup"]).getD
    (Table.new auCreate)

/-- A table whose `last_rowid` is `i32::MAX`, so the next auto-assigned
rowid no longer fits in an `i32` (reachable by inserting the explicit
primary-key value 2147483647). -/
def maxT : Table :=
  { tb_name := "t"
    columns := [Column.new "id" "Integer" true true true]
    rows := [("id", Row.Integer [])]
    indexes := []
    last_rowid := 2147483647
    primary_key := "id" }

/-- `users (id INTEGER PRIMARY KEY, name TEXT)`. -/
def usersCreate : CreateQuery :=
  { table_name := "users"
    columns := [{ name := "id", datatype := "Integer", is_pk := true,
                  not_null := true, is_unique := true },
                { name := "name", datatype := "Text", is_pk := false,
                  not_null := false, is_unique := false }] }

def usersT : Table := Table.new usersCreate

def usersDb : Database :=
  { db_name := "main", tables := [("users", usersT)] }

/-- An INSERT naming a column (`zzz`) that `users` does not have. -/
def badColIns : InsertQuery :=
  { table_name := "users", columns := ["zzz"], rows := [["1"]] }

/-! ### The claims -/

/-- Claim C1, amended: for every completed `insert_row` call whose column
list does not name the table's primary-key column (in particular for every
table without a primary key), `last_rowid` after the call is at least its
value before the call (it is exactly the old value plus one). The original
claim included inserts that supply an explicit primary-key value; those set
`last_rowid` to the supplied value, which may be smaller. -/
theorem claim_C1_theorem (t : Table) (cols values : List String) (t' : Table)
    (hp : t.primary_key = "-1" ∨
      (cols.any (fun col => col == t.primary_key)) = false)
    (h : t.insert_row cols values = some t') :
    t.last_rowid ≤ t'.last_rowid := by
  have h1 := (insert_row_no_name hp h).1
  omega

/-- Claim C1 fails as stated: inserting the explicit primary-key value 5
and then the explicit value 2 makes `last_rowid` drop from 5 to 2. -/
theorem claim_C1_counterexample :
    pkT0.insert_row ["id"] ["5"] = some pkT1 ∧
    pkT1.insert_row ["id"] ["2"] = some pkT2 ∧
    pkT1.last_rowid = 5 ∧ pkT2.last_rowid = 2 ∧
    ¬ (pkT1.last_rowid ≤ pkT2.last_rowid) := by
  refine ⟨by decide, by decide, by decide, by decide, by decide⟩

/-- Witness for the amended C1 at a concrete input: an insert into the
`id`-primary-key table that omits `id`. -/
theorem claim_C1_witness :
    (pkT1.primary_key = "-1" ∨
      ((([] : List String)).any (fun col => col == pkT1.primary_key)) = false) ∧
    pkT1.insert_row [] [] = some ((pkT1.insert_row [] []).getD pkT1) ∧
    pkT1.last_rowid ≤ ((pkT1.insert_row [] []).getD pkT1).last_rowid :=
  ⟨by decide, by decide,
    claim_C1_theorem pkT1 [] [] ((pkT1.insert_row [] []).getD pkT1)
      (by decide) (by decide)⟩

/-- Claim C2, amended: when every positional pairing before it completes
without error or panic, a pairing whose unique column's index already
contains the paired value makes `validate_unique_constraint` return the
descriptive unique-violation error naming that column and value, and the
dispatcher's per-row loop then stops with the wrapped error and the table
exactly as it was (no row store, index, or `last_rowid` is touched). The
original unconditional claim fails because an earlier pairing can panic
(e.g. an unparseable value for an earlier unique Integer column), in which
case no error is returned at all. -/
theorem claim_C2_theorem (t : Table) (pre rest vpre vrest : List String)
    (name val : String) (c : Column)
    (hlen : vpre.length = pre.length)
    (hlen2 : vrest.length = rest.length)
    (hpre : t.validate_unique_constraint pre vpre = some (Except.ok ()))
    (hc : t.get_column name = some c)
    (hu : c.is_unique = true)
    (hin : indexContainsVal c.index val = true) :
    t.validate_unique_constraint (pre ++ name :: rest) (vpre ++ val :: vrest)
      = some (Except.error (SQLRiteError.General (uniqueViolationMsg name val)))
    ∧ executeInsertRows (pre ++ name :: rest) t [vpre ++ val :: vrest]
      = some (t, Except.error (SQLRiteError.Internal
          ("Unique key constaint violation: " ++
            (SQLRiteError.General (uniqueViolationMsg name val)).display))) := by
  have hv : t.validate_unique_constraint (pre ++ name :: rest)
      (vpre ++ val :: vrest)
      = some (Except.error (SQLRiteError.General
          (uniqueViolationMsg name val))) := by
    rw [vuc_extend t pre vpre (name :: rest) (val :: vrest) hlen hpre]
    simp only [Table.validate_unique_constraint, List.head?_cons,
      vucStep_violation hc hu hin]
  refine ⟨hv, ?_⟩
  rw [executeInsertRows]
  rw [if_neg (by simp [hlen, hlen2])]
  simp only [hv]

/-- Claim C2 fails as stated: in `auT` (both `a` and `b` unique, `"dup"`
already in `b`'s index) the call pairing `a` with the unparseable `"xyz"`
and `b` with the colliding `"dup"` panics at `a` instead of returning the
descriptive error for `b`. -/
theorem claim_C2_counterexample :
    auT.validate_unique_constraint ["a", "b"] ["xyz", "dup"] = none ∧
    (auT.get_column "b").map (fun c => c.is_unique) = some true ∧
    (auT.get_column "b").map (fun c => indexContainsVal c.index "dup")
      = some true := by
  refine ⟨by decide, by decide, by decide⟩

/-- Witness for the amended C2 at a concrete input. -/
theorem claim_C2_witness :
    abT.validate_unique_constraint ["a"] ["1"] = some (Except.ok ()) ∧
    abT.validate_unique_constraint ["a", "b"] ["1", "dup"]
      = some (Except.error (SQLRiteError.General
          (uniqueViolationMsg "b" "dup"))) ∧
    executeInsertRows ["a", "b"] abT [["1", "dup"]]
      = some (abT, Except.error (SQLRiteError.Internal
          ("Unique key constaint violation: " ++
            (SQLRiteError.General (uniqueViolationMsg "b" "dup")).display))) :=
  ⟨by decide,
    (claim_C2_theorem abT ["a"] [] ["1"] [] "b" "dup" abColB
      (by decide) (by decide) (by decide) (by decide) (by decide)
      (by decide)).1,
    (claim_C2_theorem abT ["a"] [] ["1"] [] "b" "dup" abColB
      (by decide) (by decide) (by decide) (by decide) (by decide)
      (by decide)).2⟩

/-- Claim C3: on a table whose primary-key row store is the `Integer`
variant, an `insert_row` call that names the primary-key column, whose
supplied value scans to the integer `V`, and that completes, keys every
row-store change at `V`, sets `last_rowid` to `V` (not merely incremented),
and a later completed insert that omits the key column assigns `V + 1`. -/
theorem claim_C3_theorem (t : Table) (cols values : List String) (t' : Table)
    (tree : List (Int × Int)) (V : Int)
    (hpk : t.primary_key ≠ "-1")
    (hmem : (cols.any (fun col => col == t.primary_key)) = true)
    (hrows : alLookup t.rows t.primary_key = some (Row.Integer tree))
    (hscan : scanPk t.primary_key cols values (t.last_rowid + 1) = some V)
    (h : t.insert_row cols values = some t') :
    t'.last_rowid = V ∧
    (∀ cn k, k ≠ V → tableEntry t' cn k = tableEntry t cn k) ∧
    (∀ (cols2 values2 : List String) (t'' : Table),
      (cols2.any (fun col => col == t'.primary_key)) = false →
      t'.insert_row cols2 values2 = some t'' →
      t''.last_rowid = V + 1) := by
  obtain ⟨hov, t1, rid, t2, h1, h2, rfl⟩ := insert_row_eq h
  rw [insertRowStep2_named_int hpk hmem hrows, hscan] at h1
  simp only [Option.map_some', Option.some.injEq, Prod.mk.injEq] at h1
  obtain ⟨ht1, hrid⟩ := h1
  subst hrid
  subst ht1
  have hspec := step3go_spec t.primary_key cols values V
    (t.columns.map (fun c => c.column_name)) 0 t t2 h2
  refine ⟨rfl, ?_, ?_⟩
  · intro cn k hk
    exact hspec.2.1 cn k hk
  · intro cols2 values2 t'' hno h''
    have hlast := (insert_row_no_name (Or.inr hno) h'').1
    rw [hlast]

/-- Witness for C3: the explicit primary-key value 5 becomes the rowid and
`last_rowid`; a later insert omitting the key assigns 6. -/
theorem claim_C3_witness :
    scanPk pkT0.primary_key ["id"] ["5"] (pkT0.last_rowid + 1) = some 5 ∧
    pkT0.insert_row ["id"] ["5"] = some pkT1 ∧
    pkT1.last_rowid = 5 ∧
    pkT1.insert_row [] [] = some ((pkT1.insert_row [] []).getD pkT1) ∧
    ((pkT1.insert_row [] []).getD pkT1).last_rowid = 5 + 1 :=
  ⟨by decide, by decide,
    (claim_C3_theorem pkT0 ["id"] ["5"] pkT1 [] 5 (by decide) (by decide)
      (by decide) (by decide) (by decide)).1,
    by decide,
    (claim_C3_theorem pkT0 ["id"] ["5"] pkT1 [] 5 (by decide) (by decide)
      (by decide) (by decide) (by decide)).2.2 [] []
      ((pkT1.insert_row [] []).getD pkT1) (by decide) (by decide)⟩

/-- Claim C4, amended: omitting an Integer primary key assigns
rowid = `last_rowid + 1`, stores that rowid truncated to 32 bits
(`wrap32`, the Rust `as i32` cast) as the key column's value in its row
store keyed by the rowid, and records it in the column's Integer index;
the stored value equals the rowid exactly when `last_rowid + 1` fits in an
`i32`. The original "that same value" fails once the rowid leaves the
`i32` range. -/
theorem claim_C4_theorem (t : Table) (cols values : List String) (t' : Table)
    (tree : List (Int × Int)) (col : Column) (idx : List (Int × Int))
    (hpk : t.primary_key ≠ "-1")
    (hmem : (cols.any (fun col => col == t.primary_key)) = false)
    (hrows : alLookup t.rows t.primary_key = some (Row.Integer tree))
    (hcol : t.get_column t.primary_key = some col)
    (hidx : col.index = Index.Integer idx)
    (h : t.insert_row cols values = some t') :
    t'.last_rowid = t.last_rowid + 1 ∧
    tableEntry t' t.primary_key (t.last_rowid + 1)
      = some (RowVal.VInt (wrap32 (t.last_rowid + 1))) ∧
    ∃ idx', (t'.get_column t.primary_key).map (fun c => c.index)
        = some (Index.Integer idx') ∧
      alLookup idx' (wrap32 (t.last_rowid + 1)) = some (t.last_rowid + 1) := by
  obtain ⟨hov, t1, rid, t2, h1, h2, rfl⟩ := insert_row_eq h
  obtain ⟨hrid, hpk1, hrows1, hcol1⟩ :=
    insertRowStep2_auto_facts hpk hmem hrows hcol hidx h1
  subst hrid
  have hspec := step3go_spec t1.primary_key cols values (t.last_rowid + 1)
    (t1.columns.map (fun c => c.column_name)) 0 t1 t2 h2
  have hpres := hspec.2.2 (by rw [hpk1]; exact hmem)
  refine ⟨rfl, ?_, ?_⟩
  · show tableEntry t2 t.primary_key (t.last_rowid + 1)
      = some (RowVal.VInt (wrap32 (t.last_rowid + 1)))
    unfold tableEntry rowsEntry
    rw [show alLookup t2.rows t.primary_key = alLookup t1.rows t.primary_key
      from by rw [← hpk1]; exact hpres.1]
    rw [hrows1]
    simp [rowAt, alLookup_alInsert_self]
  · refine ⟨alInsert idx (wrap32 (t.last_rowid + 1)) (t.last_rowid + 1),
      ?_, alLookup_alInsert_self _ _ _⟩
    show (findColumn t2.columns t.primary_key).map (fun c => c.index)
      = some (Index.Integer
          (alInsert idx (wrap32 (t.last_rowid + 1)) (t.last_rowid + 1)))
    rw [show findColumn t2.columns t.primary_key
        = findColumn t1.columns t.primary_key
      from by rw [← hpk1]; exact hpres.2]
    rw [hcol1]
    rfl

/-- Claim C4 fails as stated: with `last_rowid = 2147483647` the
auto-assigned rowid is 2147483648 but the stored primary-key value is the
wrapped −2147483648, not the same value. -/
theorem claim_C4_counterexample :
    ((maxT.insert_row [] []).map (fun t => t.last_rowid)) = some 2147483648 ∧
    ((maxT.insert_row [] []).map
      (fun t => tableEntry t "id" 2147483648))
      = some (some (RowVal.VInt (-2147483648))) ∧
    (-2147483648 : Int) ≠ (2147483648 : Int) := by
  refine ⟨by decide, by decide, by decide⟩

/-- Witness for the amended C4 at a concrete input (rowid 1 fits in `i32`,
so the stored value equals the rowid). -/
theorem claim_C4_witness :
    pkT0.insert_row [] [] = some ((pkT0.insert_row [] []).getD pkT0) ∧
    ((pkT0.insert_row [] []).getD pkT0).last_rowid = pkT0.last_rowid + 1 ∧
    tableEntry ((pkT0.insert_row [] []).getD pkT0) pkT0.primary_key
      (pkT0.last_rowid + 1) = some (RowVal.VInt (wrap32 (pkT0.last_rowid + 1))) :=
  ⟨by decide,
    (claim_C4_theorem pkT0 [] [] ((pkT0.insert_row [] []).getD pkT0) []
      pkCol [] (by decide) (by decide) (by decide) (by decide) (by decide)
      (by decide)).1,
    (claim_C4_theorem pkT0 [] [] ((pkT0.insert_row [] []).getD pkT0) []
      pkCol [] (by decide) (by decide) (by decide) (by decide) (by decide)
      (by decide)).2.1⟩

/-- Claim C5, amended: an INSERT naming a column absent from the target
table makes `process_command` return the fixed error "Cannot insert, some
of the columns do not exist" — which does not name the missing columns —
and the database (hence every row store) is returned unchanged. The
original claim said the error names the missing columns; it does not. -/
theorem claim_C5_theorem (db : Database) (q : InsertQuery) (t : Table)
    (ht : alLookup db.tables q.table_name = some t)
    (hcols : (q.columns.all (fun column => t.contains_column column))
      = false) :
    process_insert db q = some (db, Except.error (SQLRiteError.Internal
      "Cannot insert, some of the columns do not exist")) := by
  unfold process_insert
  have hct : db.contains_table q.table_name = true := by
    simp [Database.contains_table, ht]
  rw [if_pos hct]
  simp only [ht, hcols, Bool.false_eq_true, if_false, reduceIte]

/-- Claim C5 fails as stated: the error for the unknown column `zzz` is a
fixed message that does not contain the column name. -/
theorem claim_C5_counterexample :
    process_insert usersDb badColIns
      = some (usersDb, Except.error (SQLRiteError.Internal
          "Cannot insert, some of the columns do not exist")) ∧
    ¬ List.IsInfix "zzz".data
      "Cannot insert, some of the columns do not exist".data := by
  refine ⟨by decide, by decide⟩

/-- Witness for the amended C5 at a concrete input. -/
theorem claim_C5_witness :
    alLookup usersDb.tables badColIns.table_name = some usersT ∧
    (badColIns.columns.all (fun column => usersT.contains_column column))
      = false ∧
    process_insert usersDb badColIns
      = some (usersDb, Except.error (SQLRiteError.Internal
          "Cannot insert, some of the columns do not exist")) :=
  ⟨by decide, by decide,
    claim_C5_theorem usersDb badColIns usersT (by decide) (by decide)⟩

/-- Column declarations `id INTEGER PRIMARY KEY, id2 INTEGER PRIMARY KEY`
as handed to the schema translator. -/
def twoPkDef1 : SqlColumnDef :=
  { name := "id", data_type := SqlDataType.Int,
    options := [SqlColumnOption.Unique true] }

def twoPkDef2 : SqlColumnDef :=
  { name := "id2", data_type := SqlDataType.Int,
    options := [SqlColumnOption.Unique true] }

def twoPkDefs : List SqlColumnDef := [twoPkDef1, twoPkDef2]

/-- The table name used in the C6 witness statement. -/
def twoPkName : String := "t"

/-- The parsed form of the first column of `twoPkDefs`. -/
def twoPkParsedPre : List ParsedColumn :=
  [{ name := "id", datatype := "Integer", is_pk := true, not_null := true,
     is_unique := true }]

/-- A declaration `r REAL PRIMARY KEY NOT NULL`. -/
def realPkDef : SqlColumnDef :=
  { name := "r", data_type := SqlDataType.Real,
    options := [SqlColumnOption.Unique true, SqlColumnOption.NotNull] }

/-- Columns `a INTEGER UNIQUE, b BOOL UNIQUE` built directly with
`Column::new` (`b` gets the `None` index variant). -/
def boolUniqueT : Table :=
  { tb_name := "t"
    columns := [Column.new "a" "Integer" false false true,
                Column.new "b" "Bool" false false true]
    rows := [("a", Row.Integer []), ("b", Row.Bool [])]
    indexes := []
    last_rowid := 0
    primary_key := "-1" }

/-- Columns `a INTEGER, b BOOL UNIQUE` (`a` not unique, so the walk passes
it); `b` carries the `None` index variant. -/
def boolUniqueT2 : Table :=
  { tb_name := "t"
    columns := [Column.new "a" "Integer" false false false,
                Column.new "b" "Bool" false false true]
    rows := [("a", Row.Integer []), ("b", Row.Bool [])]
    indexes := []
    last_rowid := 0
    primary_key := "-1" }

/-- The `b` column of `boolUniqueT2`. -/
def boolColB : Column := Column.new "b" "Bool" false false true

/-- Schema `k TEXT PRIMARY KEY, v INTEGER`. -/
def textPkCreate : CreateQuery :=
  { table_name := "t"
    columns := [{ name := "k", datatype := "Text", is_pk := true,
                  not_null := true, is_unique := true },
                { name := "v", datatype := "Integer", is_pk := false,
                  not_null := false, is_unique := false }] }

def textPkT : Table := Table.new textPkCreate

/-- Claim C6: a CREATE TABLE statement that declares a second PRIMARY KEY
column after one has been accepted (and whose new column is not a
duplicate name and not demoted by a Real/Bool type) makes
`CreateQuery::new` return the "more than one primary key" internal error,
and the dispatcher then returns that error with the database unchanged, so
no `Table` is constructed or added to the catalog. -/
theorem claim_C6_theorem (tn : String) (pre rest : List SqlColumnDef)
    (c : SqlColumnDef) (parsedPre : List ParsedColumn)
    (hpre : buildColumns tn pre [] = Except.ok parsedPre)
    (hhas : (parsedPre.any (fun col => col.is_pk)) = true)
    (hdup : (parsedPre.any (fun p => p.name == c.name)) = false)
    (hdt : ¬(mapDataType c.data_type = "Real") ∧
      ¬(mapDataType c.data_type = "Bool"))
    (hopt : SqlColumnOption.Unique true ∈ c.options) :
    CreateQuery.new tn (pre ++ c :: rest) =
      Except.error (SQLRiteError.Internal
        ("Table '" ++ tn ++ "' has more than one primary key")) ∧
    ∀ db : Database, process_create db tn (pre ++ c :: rest) =
      (db, Except.error (SQLRiteError.Internal
        ("Table '" ++ tn ++ "' has more than one primary key"))) := by
  have hb : buildColumns tn (pre ++ c :: rest) [] =
      buildColumns tn (c :: rest) parsedPre :=
    buildColumns_append tn pre [] parsedPre hpre (c :: rest)
  have hcerr : buildColumns tn (c :: rest) parsedPre =
      Except.error (SQLRiteError.Internal
        ("Table '" ++ tn ++ "' has more than one primary key")) := by
    rw [buildColumns]
    rw [if_neg (by simp [hdup])]
    rw [scanOptions_second_pk hdt hhas c.options hopt false false false]
  have hnew : CreateQuery.new tn (pre ++ c :: rest) =
      Except.error (SQLRiteError.Internal
        ("Table '" ++ tn ++ "' has more than one primary key")) := by
    unfold CreateQuery.new
    rw [hb, hcerr]
  refine ⟨hnew, ?_⟩
  intro db
  unfold process_create
  rw [hnew]

/-- Witness for C6 at a concrete statement with two INTEGER PRIMARY KEY
columns. -/
theorem claim_C6_witness :
    buildColumns "t" [twoPkDef1] [] = Except.ok twoPkParsedPre ∧
    CreateQuery.new "t" twoPkDefs =
      Except.error (SQLRiteError.Internal
        ("Table '" ++ "t" ++ "' has more than one primary key")) ∧
    process_create (Database.new "main") "t" twoPkDefs =
      (Database.new "main", Except.error (SQLRiteError.Internal
        ("Table '" ++ "t" ++ "' has more than one primary key"))) :=
  ⟨by decide,
    (claim_C6_theorem twoPkName [twoPkDef1] [] twoPkDef2
      twoPkParsedPre (by decide) (by decide) (by decide) (by decide)
      (by decide)).1,
    (claim_C6_theorem twoPkName [twoPkDef1] [] twoPkDef2
      twoPkParsedPre (by decide) (by decide) (by decide) (by decide)
      (by decide)).2 (Database.new "main")⟩

/-- Claim C7: when the catalog already contains the target name, a
CREATE TABLE whose translation succeeds makes `process_command` return the
"Cannot create, table already exists." internal error and leaves the
database — in particular the existing binding of that name — unchanged. -/
theorem claim_C7_theorem (db : Database) (tn : String)
    (cdefs : List SqlColumnDef) (payload : CreateQuery)
    (hok : CreateQuery.new tn cdefs = Except.ok payload)
    (hex : db.contains_table tn = true) :
    process_create db tn cdefs =
      (db, Except.error (SQLRiteError.Internal
        "Cannot create, table already exists.")) ∧
    alLookup (process_create db tn cdefs).1.tables tn =
      alLookup db.tables tn := by
  have hname : payload.table_name = tn := by
    unfold CreateQuery.new at hok
    cases hb : buildColumns tn cdefs [] with
    | error e => rw [hb] at hok; exact absurd hok (by simp)
    | ok cs =>
      rw [hb] at hok
      simp only [Except.ok.injEq] at hok
      rw [← hok]
  have hmain : process_create db tn cdefs =
      (db, Except.error (SQLRiteError.Internal
        "Cannot create, table already exists.")) := by
    unfold process_create
    simp only [hok]
    rw [hname]
    rw [if_pos hex]
  exact ⟨hmain, by rw [hmain]⟩

/-- Witness for C7: creating `users` a second time in `usersDb`. -/
theorem claim_C7_witness :
    CreateQuery.new "users"
        [{ name := "id", data_type := SqlDataType.Int,
           options := [SqlColumnOption.Unique true] }]
      = Except.ok { table_name := "users"
                    columns := [{ name := "id", datatype := "Integer",
                                  is_pk := true, not_null := true,
                                  is_unique := true }] } ∧
    usersDb.contains_table "users" = true ∧
    process_create usersDb "users"
        [{ name := "id", data_type := SqlDataType.Int,
           options := [SqlColumnOption.Unique true] }]
      = (usersDb, Except.error (SQLRiteError.Internal
          "Cannot create, table already exists.")) :=
  ⟨by decide, by decide,
    (claim_C7_theorem usersDb "users"
      [{ name := "id", data_type := SqlDataType.Int,
         options := [SqlColumnOption.Unique true] }]
      { table_name := "users"
        columns := [{ name := "id", datatype := "Integer", is_pk := true,
                      not_null := true, is_unique := true }] }
      (by decide) (by decide)).1⟩

/-- Claim C8, amended: when every positional pairing before it completes
without error or panic, a pairing whose column is unique but carries the
`None` index variant (a Bool/Real unique column) makes
`validate_unique_constraint` return the hard error
"Error: cannot find index for column X" naming that column, instead of
performing a uniqueness check. The original unconditional claim fails
because an earlier pairing can panic first. -/
theorem claim_C8_theorem (t : Table) (pre rest vpre vrest : List String)
    (name val : String) (c : Column)
    (hlen : vpre.length = pre.length)
    (hpre : t.validate_unique_constraint pre vpre = some (Except.ok ()))
    (hc : t.get_column name = some c)
    (hu : c.is_unique = true)
    (hidx : c.index = Index.None) :
    t.validate_unique_constraint (pre ++ name :: rest) (vpre ++ val :: vrest)
      = some (Except.error (SQLRiteError.General (cannotFindIndexMsg name)))
      := by
  rw [vuc_extend t pre vpre (name :: rest) (val :: vrest) hlen hpre]
  simp only [Table.validate_unique_constraint, List.head?_cons,
    vucStep_noindex hc hu hidx]

/-- Claim C8 fails as stated: with `a` and `b` both unique and `b` carrying
the `None` index variant, pairing `a` with the unparseable `"xyz"` panics
before the `b` pairing is reached, so no hard error is returned. -/
theorem claim_C8_counterexample :
    boolUniqueT.validate_unique_constraint ["a", "b"] ["xyz", "true"]
      = none ∧
    (boolUniqueT.get_column "b").map (fun c => (c.is_unique, c.index))
      = some (true, Index.None) := by
  refine ⟨by decide, by decide⟩

/-- Witness for the amended C8 at a concrete input. -/
theorem claim_C8_witness :
    boolUniqueT2.validate_unique_constraint ["a"] ["1"]
      = some (Except.ok ()) ∧
    boolUniqueT2.validate_unique_constraint ["a", "b"] ["1", "true"]
      = some (Except.error (SQLRiteError.General
          (cannotFindIndexMsg "b"))) :=
  ⟨by decide,
    claim_C8_theorem boolUniqueT2 ["a"] [] ["1"] [] "b" "true" boolColB
      (by decide) (by decide) (by decide) (by decide) (by decide)⟩

/-- Claim C9: in `CreateQuery::new`, a column whose declared type maps to
`"Real"` or `"Bool"` and that carries a PRIMARY KEY or UNIQUE option is
silently demoted: translation continues with no error, the resulting
`ParsedColumn` has `is_pk = false` and `is_unique = false`, and `not_null`
is set exactly when a separate NOT NULL option is present. -/
theorem claim_C9_theorem (tn : String) (c : SqlColumnDef)
    (rest : List SqlColumnDef) (acc : List ParsedColumn)
    (hdt : mapDataType c.data_type = "Real" ∨
      mapDataType c.data_type = "Bool")
    (hdup : (acc.any (fun p => p.name == c.name)) = false)
    (_hopt : ∃ b, SqlColumnOption.Unique b ∈ c.options) :
    buildColumns tn (c :: rest) acc =
      buildColumns tn rest
        (acc ++ [{ name := c.name
                   datatype := mapDataType c.data_type
                   is_pk := false
                   not_null := notNullIn c.options
                   is_unique := false }]) := by
  rw [buildColumns]
  rw [if_neg (by simp [hdup])]
  rw [scanOptions_demoted hdt c.options false false false]
  simp only [Bool.false_or]

/-- Witness for C9: `r REAL PRIMARY KEY NOT NULL` translates to a plain
non-key, non-unique, not-null `Real` column. -/
theorem claim_C9_witness :
    (mapDataType realPkDef.data_type = "Real" ∨
      mapDataType realPkDef.data_type = "Bool") ∧
    buildColumns "t" [realPkDef] [] =
      buildColumns "t" []
        [{ name := realPkDef.name
           datatype := mapDataType realPkDef.data_type
           is_pk := false
           not_null := notNullIn realPkDef.options
           is_unique := false }] ∧
    buildColumns "t" [realPkDef] [] =
      Except.ok [{ name := "r", datatype := "Real", is_pk := false,
                   not_null := true, is_unique := false }] :=
  ⟨Or.inl (by decide),
    by
      have := claim_C9_theorem twoPkName realPkDef [] [] (Or.inl (by decide))
        (by decide) ⟨true, by decide⟩
      simpa using this,
    by decide⟩

/-- Claim C10: on a table whose primary-key row store is the `Text`
variant, naming the primary-key column in the caller's column list does
not make the supplied value the rowid: a completed insert keys every
row-store change at `last_rowid + 1` and increases `last_rowid` by exactly
one. -/
theorem claim_C10_theorem (t : Table) (cols values : List String)
    (t' : Table) (m : List (Int × String))
    (hpk : t.primary_key ≠ "-1")
    (hmem : (cols.any (fun col => col == t.primary_key)) = true)
    (hrows : alLookup t.rows t.primary_key = some (Row.Text m))
    (h : t.insert_row cols values = some t') :
    t'.last_rowid = t.last_rowid + 1 ∧
    (∀ cn k, k ≠ t.last_rowid + 1 →
      tableEntry t' cn k = tableEntry t cn k) := by
  obtain ⟨hov, t1, rid, t2, h1, h2, rfl⟩ := insert_row_eq h
  rw [insertRowStep2_named_other hpk hmem hrows
    (by intro m' he; exact absurd he (by simp))] at h1
  simp only [Option.some.injEq, Prod.mk.injEq] at h1
  obtain ⟨ht1, hrid⟩ := h1
  subst hrid
  subst ht1
  have hspec := step3go_spec t.primary_key cols values (t.last_rowid + 1)
    (t.columns.map (fun c => c.column_name)) 0 t t2 h2
  exact ⟨rfl, fun cn k hk => hspec.2.1 cn k hk⟩

/-- Witness for C10: inserting `("abc", 7)` into `k TEXT PRIMARY KEY,
v INTEGER` while naming `k` keys the row at 1 and sets `last_rowid` to 1
(not to any parse of `"abc"`). -/
theorem claim_C10_witness :
    textPkT.insert_row ["k", "v"] ["abc", "7"]
      = some ((textPkT.insert_row ["k", "v"] ["abc", "7"]).getD textPkT) ∧
    ((textPkT.insert_row ["k", "v"] ["abc", "7"]).getD textPkT).last_rowid
      = textPkT.last_rowid + 1 :=
  ⟨by decide,
    (claim_C10_theorem textPkT ["k", "v"] ["abc", "7"]
      ((textPkT.insert_row ["k", "v"] ["abc", "7"]).getD textPkT) []
      (by decide) (by decide) (by decide) (by decide)).1⟩

end SQLRite
